import Mathlib

/-!
Verification development for the `beautify` workflow (src/tools/beautify.py).

The script drives a fixed set of repository-mutation tools with a langchain
agent.  We shallowly embed the operational tools — `clone_repo`,
`checkout_source_branch`, `run_autopep8`, `has_changes`, `commit_and_push` —
over an explicit model of git state, and settle the specification claims
against them.  Git/GitPython primitives used by the script
(`git.Repo.clone_from`, `repo.git.checkout`, `repo.git.pull`,
`repo.git.add(update=True)`, `repo.index.commit`, `origin.push`,
`repo.is_dirty()`, `subprocess.run(["autopep8", "--in-place", f])`) are
modelled by small total functions whose doc comments record the git
behaviour they embed.
-/

namespace Beautify

/-- A commit object: an identifier plus the commit message.  Commit ids stand
for object hashes; freshness of `Checkout.nextId` is an explicit hypothesis
where a theorem needs it. -/
structure Commit where
  id : Nat
  message : String
deriving DecidableEq

/-- Branch name to commit history (newest commit first), as an association
list, used for both local and remote refs. -/
def Branches : Type := List (String × List Commit)

instance : DecidableEq Branches := by
  unfold Branches
  infer_instance

/-- Look up the history of branch `n`; an absent branch reads as the empty
history. -/
def lookupBranch (bs : Branches) (n : String) : List Commit :=
  match bs with
  | [] => []
  | (m, h) :: rest => if m = n then h else lookupBranch rest n

/-- Look up branch `n`, distinguishing absence from an empty history. -/
def findBranch (bs : Branches) (n : String) : Option (List Commit) :=
  match bs with
  | [] => none
  | (m, h) :: rest => if m = n then some h else findBranch rest n

/-- Set branch `n` to history `h`, creating the branch if absent. -/
def setBranch (bs : Branches) (n : String) (h : List Commit) : Branches :=
  match bs with
  | [] => [(n, h)]
  | (m, h0) :: rest => if m = n then (m, h) :: rest else (m, h0) :: setBranch rest n h

/-- A file tree: repository-relative path to file content.  Used for the
committed tree, the index and the working tree (tracked files). -/
def Tree : Type := List (String × String)

instance : DecidableEq Tree := by
  unfold Tree
  infer_instance

/-- Content of `file` in a tree, `none` when the path does not exist. -/
def lookupFile (t : Tree) (file : String) : Option String :=
  match t with
  | [] => none
  | (p, c) :: rest => if p = file then some c else lookupFile rest file

/-- Replace the content of `file` (no effect when the path is absent, matching
an in-place formatter that cannot create files). -/
def setFile (t : Tree) (file : String) (content : String) : Tree :=
  match t with
  | [] => []
  | (p, c) :: rest => if p = file then (p, content) :: rest else (p, c) :: setFile rest file content

/-- The mutable state of the local checkout at `/tmp/aiw4`: current branch
(HEAD), local and remote-tracking refs, the tree of the HEAD commit, the
index, the working-tree content of tracked files, and untracked files.
`nextId` is the id the next created commit object will get. -/
structure Checkout where
  currentBranch : String
  localBranches : Branches
  remoteBranches : Branches
  headTree : Tree
  index : Tree
  workTree : Tree
  untracked : Tree
  nextId : Nat
deriving DecidableEq

/-- The environment variables the script reads. -/
structure Env where
  GITHUB_TOKEN : String
  REPO_PATH : String
  SOURCE_BRANCH : String
deriving DecidableEq

/-- `LOCAL_REPO_PATH = "/tmp/aiw4"` (src line 17). -/
def LOCAL_REPO_PATH : String := "/tmp/aiw4"

/-- The state of a remote repository, used as the clone source. -/
structure RemoteRepo where
  defaultBranch : String
  branches : Branches
  tree : Tree
deriving DecidableEq

/-- The world `clone_repo` acts on: whether `LOCAL_REPO_PATH` exists on disk,
whether what is there is a valid repository, the checkout (if any), a count
of network operations performed, and the lines printed so far. -/
structure World where
  pathExists : Bool
  isValidRepo : Bool
  checkout : Option Checkout
  networkOps : Nat
  output : List String
deriving DecidableEq

/-- `git.Repo.clone_from(repo_url, LOCAL_REPO_PATH)`: a fresh checkout of the
remote, on its default branch, with clean index and working tree. -/
def cloneCheckout (r : RemoteRepo) : Checkout :=
  { currentBranch := r.defaultBranch
    localBranches := r.branches
    remoteBranches := r.branches
    headTree := r.tree
    index := r.tree
    workTree := r.tree
    untracked := []
    nextId := (r.branches.foldr (fun p m => p.2.foldr (fun cm m2 => max cm.id m2) m) 0) + 1 }

/-- The URL built at src line 25:
`f"https://{GITHUB_TOKEN}@github.com/{REPO_PATH}.git"`. -/
def repo_url (env : Env) : String :=
  "https://" ++ env.GITHUB_TOKEN ++ "@github.com/" ++ env.REPO_PATH ++ ".git"

/-- The line printed after a fresh clone (src line 29). -/
def cloneMsg (env : Env) : String :=
  "Cloned repo from " ++ repo_url env ++ " to " ++ LOCAL_REPO_PATH

/-- The line printed when the path already exists (src line 31). -/
def existsMsg : String :=
  "Repo already exists at " ++ LOCAL_REPO_PATH

/-- `clone_repo` (src lines 21-31): clone the repository to
`LOCAL_REPO_PATH` if that path does not exist; otherwise only report that it
is already there.  The guard is `os.path.exists` — bare path existence, with
no validation of what occupies the path. -/
def clone_repo (env : Env) (remote : RemoteRepo) (w : World) : World :=
  if w.pathExists then
    { w with output := w.output ++ [existsMsg] }
  else
    { pathExists := true
      isValidRepo := true
      checkout := some (cloneCheckout remote)
      networkOps := w.networkOps + 1
      output := w.output ++ [cloneMsg env] }

/-- `repo.git.checkout(b)`: switch HEAD to branch `b`.  A branch present
locally is checked out directly; a branch present only on the remote is
checked out as a new local tracking branch (git's checkout guessing); an
unknown branch is an error (`none`). -/
def gitCheckout (b : String) (c : Checkout) : Option Checkout :=
  match findBranch c.localBranches b with
  | some _ => some { c with currentBranch := b }
  | none =>
    match findBranch c.remoteBranches b with
    | some h => some { c with currentBranch := b, localBranches := setBranch c.localBranches b h }
    | none => none

/-- `repo.git.pull()`: update the current branch from its remote tracking
branch.  Modelled for the fast-forward case (local history a suffix of the
remote history, newest first), which is the situation the workflow runs in
(clean clone, trunk behind remote); a diverging pull is outside the modelled
state space and yields `none`. -/
def gitPull (c : Checkout) : Option Checkout :=
  let lb := lookupBranch c.localBranches c.currentBranch
  let rb := lookupBranch c.remoteBranches c.currentBranch
  if lb.isSuffixOf rb then
    some { c with localBranches := setBranch c.localBranches c.currentBranch rb }
  else
    none

/-- `checkout_source_branch` (src lines 48-63): checkout `main`, pull the
latest changes, then checkout `SOURCE_BRANCH`. -/
def checkout_source_branch (env : Env) (c : Checkout) : Option Checkout :=
  (gitCheckout "main" c).bind fun c1 =>
    (gitPull c1).bind fun c2 =>
      gitCheckout env.SOURCE_BRANCH c2

/-- Outcome of one `autopep8 --in-place` invocation on a file's content:
either the (possibly identical) rewritten content, or a tool failure
(non-zero exit: crash, rejected syntax, permission error). -/
inductive FmtOutcome where
  | ok (newContent : String)
  | fail
deriving DecidableEq

/-- The behaviour of the external `autopep8` tool: path and current content
to outcome.  The workflow treats the tool as a black box. -/
def FmtTool : Type := String → String → FmtOutcome

/-- `subprocess.run(["autopep8", "--in-place", file])` (src line 100): run
the tool on one file.  A missing file or a failing tool leaves the tree
unchanged; `subprocess.run` is called without `check=True`, so a non-zero
exit raises nothing and control always returns to the loop. -/
def subprocessRunAutopep8 (tool : FmtTool) (file : String) (t : Tree) : Tree :=
  match lookupFile t file with
  | none => t
  | some content =>
    match tool file content with
    | FmtOutcome.ok nc => setFile t file nc
    | FmtOutcome.fail => t

/-- Per-file outcome in the spec's report vocabulary. -/
inductive FormatStatus where
  | formatted
  | skipped
  | failed
deriving DecidableEq

/-- A per-file format report entry. -/
structure FormatResult where
  path : String
  status : FormatStatus
deriving DecidableEq

/-- What running `run_autopep8` leaves behind: the resulting working tree,
the files the tool was invoked on (in order), and the value the Python
function returns to its caller. -/
structure RunOut where
  tree : Tree
  invoked : List String
  returned : Option (List FormatResult)
deriving DecidableEq

/-- `run_autopep8` (src lines 92-100): loop over `files`, invoking the tool
on each in order.  The loop body cannot raise, so every file is processed;
the function body is only the loop, so the Python function returns `None`
(modelled as `returned = none`). -/
def run_autopep8 (tool : FmtTool) (files : List String) (t : Tree) : RunOut :=
  match files with
  | [] => { tree := t, invoked := [], returned := none }
  | f :: rest =>
    let o := run_autopep8 tool rest (subprocessRunAutopep8 tool f t)
    { tree := o.tree, invoked := f :: o.invoked, returned := none }

/-- `has_changes` (src lines 104-113), i.e. `repo.is_dirty()`: true when the
index differs from HEAD or the working tree differs from the index
(GitPython's default: untracked files are not considered). -/
def has_changes (c : Checkout) : Bool :=
  c.index ≠ c.headTree ∨ c.workTree ≠ c.index

/-- One entry of the result of `origin.push` as printed by the script. -/
structure PushInfo where
  summary : String
  remote_ref : String
  local_ref : String
deriving DecidableEq

/-- `repo.git.add(update=True)` (src line 128): stage modifications of
already-tracked files only — the index becomes the tracked working tree;
untracked files are never added. -/
def gitAddUpdate (c : Checkout) : Checkout :=
  { c with index := c.workTree }

/-- `repo.index.commit(message)` (src line 129): write a commit object from
the current index onto the checked-out branch (HEAD).  GitPython's
`IndexFile.commit` creates the commit unconditionally — unlike the git CLI
it has no notion of refusing an empty commit, so this operation is total. -/
def indexCommit (msg : String) (c : Checkout) : Checkout :=
  { c with
    localBranches :=
      setBranch c.localBranches c.currentBranch
        ({ id := c.nextId, message := msg } :: lookupBranch c.localBranches c.currentBranch)
    headTree := c.index
    nextId := c.nextId + 1 }

/-- `origin.push(refspec=f"{b}:{b}")` (src line 132): update the remote ref
named `b` with the local branch `b`, reporting the refs involved. -/
def originPush (b : String) (c : Checkout) : Checkout × PushInfo :=
  ({ c with remoteBranches := setBranch c.remoteBranches b (lookupBranch c.localBranches b) },
   { summary := b ++ " -> " ++ b
     remote_ref := b
     local_ref := b })

/-- `commit_and_push` (src lines 117-138): read the branch name from
`SOURCE_BRANCH`, stage tracked modifications, commit with the given message,
and push `branch_name:branch_name` to origin. -/
def commit_and_push (env : Env) (commit_message : String) (c : Checkout) : Checkout × PushInfo :=
  originPush env.SOURCE_BRANCH (indexCommit commit_message (gitAddUpdate c))

/-- The operational tools registered with the agent (src lines 141-150). -/
inductive ToolCall where
  | cloneRepo
  | switchToLocalRepoPath
  | checkoutSourceBranch
  | getFilesFromPullRequest
  | runAutopep8Tool
  | hasChangesTool
  | commitAndPush
deriving DecidableEq

/-- Modelled from the `user_prompt` string (src lines 188-195): the
instruction sequence it dictates — clone, switch to the local directory,
checkout the source branch, beautify the changed .py files (which requires
fetching the PR's file list first), commit and push.  The prompt contains no
instruction to check whether the tree changed: `has_changes` is registered
as a tool but never asked for. -/
def promptPlan : List ToolCall :=
  [ToolCall.cloneRepo, ToolCall.switchToLocalRepoPath, ToolCall.checkoutSourceBranch,
   ToolCall.getFilesFromPullRequest, ToolCall.runAutopep8Tool, ToolCall.commitAndPush]

/-- The observable outcome of one prompted workflow run on a checkout: the
state just before the commit step (what `has_changes` would have inspected),
the final state, the push report, and the tools invoked on the checkout. -/
structure WorkflowOut where
  preCommit : Checkout
  final : Checkout
  pushed : PushInfo
  calls : List ToolCall
deriving DecidableEq

/-- The checkout-mutating part of the workflow the `user_prompt` dictates,
applied to an existing checkout: checkout the source branch, run autopep8 on
the PR's changed files, then commit and push — unconditionally, since the
prompt never asks for a dirty-state check. -/
def runPromptWorkflow (env : Env) (tool : FmtTool) (files : List String)
    (msg : String) (c : Checkout) : Option WorkflowOut :=
  (checkout_source_branch env c).map fun c1 =>
    let c2 := { c1 with workTree := (run_autopep8 tool files c1.workTree).tree }
    let out := commit_and_push env msg c2
    { preCommit := c2
      final := out.1
      pushed := out.2
      calls := [ToolCall.checkoutSourceBranch, ToolCall.runAutopep8Tool, ToolCall.commitAndPush] }

/-- A formatter that fails (non-zero exit) on every file. -/
def failTool : FmtTool := fun _ _ => FmtOutcome.fail

/-- A formatter that finds every file already compliant (rewrites content
unchanged). -/
def idTool : FmtTool := fun _ content => FmtOutcome.ok content

/-- A formatter that rewrites every file it is given. -/
def rewriteTool : FmtTool := fun _ _ => FmtOutcome.ok "formatted"

/-- Modelled from the spec: the example filter predicate, a Python
source-file extension allow-list.  The script itself has no counterpart —
this predicate exists only to state what the spec claims about filtering. -/
def pyFilter (file : String) : Bool :=
  [Char.ofNat 46, Char.ofNat 112, Char.ofNat 121].isSuffixOf file.data

/-! ### Concrete fixtures used by witnesses and counterexamples -/

/-- A concrete environment: token, repository path, source branch. -/
def envA : Env :=
  { GITHUB_TOKEN := "tokA", REPO_PATH := "owner/repo", SOURCE_BRANCH := "feature-1" }

/-- Same environment with a different secret token. -/
def envB : Env :=
  { GITHUB_TOKEN := "tokB", REPO_PATH := "owner/repo", SOURCE_BRANCH := "feature-1" }

/-- A concrete remote repository. -/
def remoteA : RemoteRepo :=
  { defaultBranch := "main"
    branches := [("main", [{ id := 0, message := "c0" }])]
    tree := [("a.py", "x")] }

/-- A world in which nothing occupies `LOCAL_REPO_PATH` yet. -/
def freshWorld : World :=
  { pathExists := false, isValidRepo := false, checkout := none, networkOps := 0, output := [] }

/-- A world in which `LOCAL_REPO_PATH` exists but holds no valid repository. -/
def wNonRepo : World :=
  { pathExists := true, isValidRepo := false, checkout := none, networkOps := 0, output := [] }

/-- A checkout on the source branch with a modified tracked file and an
untracked scratch file. -/
def cDirty : Checkout :=
  { currentBranch := "feature-1"
    localBranches := [("feature-1", [{ id := 0, message := "c0" }])]
    remoteBranches := [("feature-1", [{ id := 0, message := "c0" }])]
    headTree := [("a.py", "old")]
    index := [("a.py", "old")]
    workTree := [("a.py", "new")]
    untracked := [("scratch.txt", "z")]
    nextId := 1 }

/-- A clean checkout sitting on `main`, with the feature branch available on
both local and remote refs, suitable for a full prompted workflow run. -/
def cClean : Checkout :=
  { currentBranch := "main"
    localBranches := [("main", [{ id := 0, message := "c0" }]),
                      ("feature-1", [{ id := 0, message := "c0" }])]
    remoteBranches := [("main", [{ id := 0, message := "c0" }]),
                       ("feature-1", [{ id := 0, message := "c0" }])]
    headTree := [("a.py", "x")]
    index := [("a.py", "x")]
    workTree := [("a.py", "x")]
    untracked := []
    nextId := 1 }

/-- A clean checkout already on the source branch. -/
def cCleanFeat : Checkout :=
  { currentBranch := "feature-1"
    localBranches := [("feature-1", [{ id := 0, message := "c0" }])]
    remoteBranches := [("feature-1", [{ id := 0, message := "c0" }])]
    headTree := [("a.py", "x")]
    index := [("a.py", "x")]
    workTree := [("a.py", "x")]
    untracked := []
    nextId := 1 }

/-- A checkout whose trunk is one commit behind its remote and whose source
branch exists only on the remote. -/
def cSync : Checkout :=
  { currentBranch := "main"
    localBranches := [("main", [{ id := 0, message := "c0" }])]
    remoteBranches := [("main", [{ id := 1, message := "c1" }, { id := 0, message := "c0" }]),
                       ("feature-1", [{ id := 0, message := "c0" }])]
    headTree := [("a.py", "x")]
    index := [("a.py", "x")]
    workTree := [("a.py", "x")]
    untracked := []
    nextId := 2 }

/-- The result of syncing `cSync` to the source branch. -/
def cSyncRes : Checkout :=
  match checkout_source_branch envA cSync with
  | some c => c
  | none => cSync

/-- A dirty checkout whose HEAD is `main` while `SOURCE_BRANCH` is
`feature-1`. -/
def cOnMain : Checkout :=
  { currentBranch := "main"
    localBranches := [("main", [{ id := 0, message := "c0" }]),
                      ("feature-1", [{ id := 0, message := "c0" }])]
    remoteBranches := [("main", [{ id := 0, message := "c0" }]),
                       ("feature-1", [{ id := 0, message := "c0" }])]
    headTree := [("a.py", "x")]
    index := [("a.py", "x")]
    workTree := [("a.py", "y")]
    untracked := []
    nextId := 1 }

/-- The outcome of the prompted workflow on `cClean` with a formatter that
changes nothing. -/
def oClean : WorkflowOut :=
  match runPromptWorkflow envA idTool ["a.py"] "style: beautify" cClean with
  | some o => o
  | none =>
    { preCommit := cClean
      final := cClean
      pushed := { summary := "", remote_ref := "", local_ref := "" }
      calls := [] }

/-! ### Helper lemmas about the branch map, the formatter loop and strings -/

theorem lookupBranch_setBranch_same (bs : Branches) (n : String) (h : List Commit) :
    lookupBranch (setBranch bs n h) n = h := by
  induction bs with
  | nil => simp [setBranch, lookupBranch]
  | cons p rest ih =>
    by_cases hm : p.1 = n <;> simp [setBranch, lookupBranch, hm, ih]

theorem lookupBranch_setBranch_other (bs : Branches) (n m : String) (h : List Commit)
    (hnm : m ≠ n) : lookupBranch (setBranch bs n h) m = lookupBranch bs m := by
  induction bs with
  | nil =>
    simp only [setBranch, lookupBranch]
    rw [if_neg hnm.symm]
  | cons p rest ih =>
    obtain ⟨q, hist⟩ := p
    by_cases hq : q = n
    · subst hq
      simp only [setBranch, if_pos rfl, lookupBranch]
      rw [if_neg hnm.symm, if_neg hnm.symm]
    · simp only [setBranch, if_neg hq, lookupBranch]
      by_cases hm : q = m
      · rw [if_pos hm, if_pos hm]
      · rw [if_neg hm, if_neg hm, ih]

theorem run_autopep8_invoked (tool : FmtTool) (files : List String) (t : Tree) :
    (run_autopep8 tool files t).invoked = files := by
  induction files generalizing t with
  | nil => simp [run_autopep8]
  | cons f rest ih => simp [run_autopep8, ih]

theorem run_autopep8_returned (tool : FmtTool) (files : List String) (t : Tree) :
    (run_autopep8 tool files t).returned = none := by
  cases files <;> simp [run_autopep8]

theorem gitCheckout_currentBranch (b : String) (c c' : Checkout)
    (h : gitCheckout b c = some c') : c'.currentBranch = b := by
  unfold gitCheckout at h
  cases hf : findBranch c.localBranches b with
  | some hist => rw [hf] at h; cases h; rfl
  | none =>
    rw [hf] at h
    cases hr : findBranch c.remoteBranches b with
    | some hist => rw [hr] at h; cases h; rfl
    | none => rw [hr] at h; cases h

theorem gitPull_fastForwards (c c' : Checkout) (h : gitPull c = some c') :
    lookupBranch c'.localBranches c.currentBranch
      = lookupBranch c.remoteBranches c.currentBranch ∧
    c'.currentBranch = c.currentBranch := by
  unfold gitPull at h
  by_cases hff :
      (lookupBranch c.localBranches c.currentBranch).isSuffixOf
        (lookupBranch c.remoteBranches c.currentBranch)
  · simp only [hff, if_true] at h
    cases h
    exact ⟨lookupBranch_setBranch_same _ _ _, rfl⟩
  · simp [hff] at h

theorem string_append_data (a b : String) : (a ++ b).data = a.data ++ b.data := by
  cases a
  cases b
  rfl

theorem string_append_right_cancel (a b c : String) (h : a ++ c = b ++ c) : a = b := by
  have hd : a.data ++ c.data = b.data ++ c.data := by
    rw [← string_append_data, ← string_append_data, h]
  have : a.data = b.data := List.append_cancel_right hd
  cases a
  cases b
  exact congrArg String.mk this

theorem string_append_left_cancel (a b c : String) (h : a ++ b = a ++ c) : b = c := by
  have hd : a.data ++ b.data = a.data ++ c.data := by
    rw [← string_append_data, ← string_append_data, h]
  have : b.data = c.data := List.append_cancel_left hd
  cases b
  cases c
  exact congrArg String.mk this

theorem cloneMsg_token_inj (e1 e2 : Env) (hrp : e1.REPO_PATH = e2.REPO_PATH)
    (h : cloneMsg e1 = cloneMsg e2) : e1.GITHUB_TOKEN = e2.GITHUB_TOKEN := by
  unfold cloneMsg repo_url at h
  have h1 := string_append_right_cancel _ _ _ h
  have h2 := string_append_right_cancel _ _ _ h1
  have h3 := string_append_left_cancel _ _ _ h2
  have h4 := string_append_right_cancel _ _ _ h3
  rw [hrp] at h4
  have h5 := string_append_right_cancel _ _ _ h4
  have h6 := string_append_right_cancel _ _ _ h5
  exact string_append_left_cancel _ _ _ h6

/-! ### Claim theorems -/

/-- Claim C1: on a checkout with modified tracked files, `commit_and_push`
stages only modifications of already-tracked files (the committed tree is the
tracked working tree, untracked files stay out of it and out of the
checkout's staging), creates exactly one commit carrying the given message on
the checked-out branch, and pushes the branch named by `SOURCE_BRANCH` to the
same-named remote ref, as also reported by the push info. -/
theorem commit_and_push_stages_tracked_commits_once_pushes_branch
    (env : Env) (msg : String) (c : Checkout)
    (_hdirty : c.workTree ≠ c.headTree)
    (hdisj : ∀ p ∈ c.untracked.map Prod.fst, p ∉ c.workTree.map Prod.fst) :
    (commit_and_push env msg c).1.headTree = c.workTree ∧
    (∀ p ∈ c.untracked.map Prod.fst,
      p ∉ ((commit_and_push env msg c).1.headTree).map Prod.fst) ∧
    (commit_and_push env msg c).1.untracked = c.untracked ∧
    lookupBranch (commit_and_push env msg c).1.localBranches c.currentBranch =
      { id := c.nextId, message := msg } :: lookupBranch c.localBranches c.currentBranch ∧
    lookupBranch (commit_and_push env msg c).1.remoteBranches env.SOURCE_BRANCH =
      lookupBranch (commit_and_push env msg c).1.localBranches env.SOURCE_BRANCH ∧
    (commit_and_push env msg c).2.remote_ref = env.SOURCE_BRANCH ∧
    (commit_and_push env msg c).2.local_ref = env.SOURCE_BRANCH := by
  refine ⟨rfl, ?_, rfl, ?_, ?_, rfl, rfl⟩
  · exact hdisj
  · exact lookupBranch_setBranch_same _ _ _
  · exact lookupBranch_setBranch_same _ _ _

/-- Witness for C1 at a concrete dirty checkout. -/
theorem commit_and_push_stages_tracked_commits_once_pushes_branch_witness :
    cDirty.workTree ≠ cDirty.headTree ∧
    (commit_and_push envA "style" cDirty).1.untracked = cDirty.untracked :=
  ⟨by decide,
   (commit_and_push_stages_tracked_commits_once_pushes_branch envA "style" cDirty
     (by decide) (by decide)).2.2.1⟩

/-- Claim C2 (counterexample): with one input file on which the tool fails,
the value `run_autopep8` returns to its caller is `None` — it does not carry
one entry marking the file failed, or any entries at all. -/
theorem run_autopep8_no_aggregate_counterexample :
    ¬ ∃ rs : List FormatResult,
        (run_autopep8 failTool ["a.py"] [("a.py", "x")]).returned = some rs ∧
        rs.length = 1 := by
  simp [run_autopep8_returned]

/-- Claim C2 (amended): `run_autopep8` does not abort on a per-file tool
failure — whatever the tool does, every one of the N input files is passed to
it — but no aggregate result is returned to the caller: the Python function
returns `None`. -/
theorem run_autopep8_processes_all_and_returns_none
    (tool : FmtTool) (files : List String) (t : Tree) :
    (run_autopep8 tool files t).invoked.length = files.length ∧
    (run_autopep8 tool files t).returned = none := by
  rw [run_autopep8_invoked]
  exact ⟨rfl, run_autopep8_returned tool files t⟩

/-- Claim C3 (counterexample): a concrete prompted run on a clean checkout
with a formatter that changes nothing: the dirty check over the pre-commit
state is false, yet commit-and-push is among the calls made and the source
branch gains a (necessarily empty) commit. -/
theorem workflow_commits_when_clean_counterexample :
    (runPromptWorkflow envA idTool ["a.py"] "style: beautify" cClean).map
        (fun o => (has_changes o.preCommit,
                   o.calls.contains ToolCall.commitAndPush,
                   lookupBranch o.final.localBranches "feature-1"))
      = some (false, true,
          [{ id := 1, message := "style: beautify" }, { id := 0, message := "c0" }]) := by
  decide

/-- Claim C3 (amended): the workflow the `user_prompt` dictates never
consults `has_changes` (the tool is not in the prompt's plan and is not
called) and invokes `commit_and_push` in every successful run, whether or not
the tree changed: the checked-out branch always gains a commit. -/
theorem workflow_always_invokes_commit_and_push
    (env : Env) (tool : FmtTool) (files : List String) (msg : String)
    (c : Checkout) (o : WorkflowOut)
    (h : runPromptWorkflow env tool files msg c = some o) :
    ToolCall.commitAndPush ∈ o.calls ∧
    ToolCall.hasChangesTool ∉ o.calls ∧
    ToolCall.hasChangesTool ∉ promptPlan ∧
    lookupBranch o.final.localBranches o.preCommit.currentBranch =
      { id := o.preCommit.nextId, message := msg } ::
        lookupBranch o.preCommit.localBranches o.preCommit.currentBranch := by
  unfold runPromptWorkflow at h
  cases h1 : checkout_source_branch env c with
  | none => rw [h1] at h; cases h
  | some c1 =>
    rw [h1] at h
    simp only [Option.map_some'] at h
    cases h
    refine ⟨?_, ?_, ?_, ?_⟩
    · show ToolCall.commitAndPush ∈
        [ToolCall.checkoutSourceBranch, ToolCall.runAutopep8Tool, ToolCall.commitAndPush]
      decide
    · show ToolCall.hasChangesTool ∉
        [ToolCall.checkoutSourceBranch, ToolCall.runAutopep8Tool, ToolCall.commitAndPush]
      decide
    · decide
    · exact lookupBranch_setBranch_same _ _ _

/-- Witness for the amended C3 at a concrete successful run. -/
theorem workflow_always_invokes_commit_and_push_witness :
    runPromptWorkflow envA idTool ["a.py"] "style: beautify" cClean = some oClean ∧
    ToolCall.commitAndPush ∈ oClean.calls :=
  ⟨by decide,
   (workflow_always_invokes_commit_and_push envA idTool ["a.py"] "style: beautify" cClean
     oClean (by decide)).1⟩

/-- Claim C4: `clone_repo` is idempotent — after any first call, a repeated
call with the same arguments leaves the path state, repository validity,
checkout and network-operation count unchanged, so network I/O and
filesystem writes happen on the first call only. -/
theorem clone_repo_idempotent (env : Env) (r : RemoteRepo) (w : World) :
    (clone_repo env r (clone_repo env r w)).checkout = (clone_repo env r w).checkout ∧
    (clone_repo env r (clone_repo env r w)).pathExists = (clone_repo env r w).pathExists ∧
    (clone_repo env r (clone_repo env r w)).isValidRepo = (clone_repo env r w).isValidRepo ∧
    (clone_repo env r (clone_repo env r w)).networkOps = (clone_repo env r w).networkOps := by
  by_cases hp : w.pathExists <;> simp [clone_repo, hp]

/-- Claim C5 (counterexample): a world whose local path exists but holds no
valid repository — `clone_repo` performs no clone, leaves the invalid state
in place, and raises no error, merely printing the already-exists message. -/
theorem clone_repo_nonrepo_counterexample :
    (clone_repo envA remoteA wNonRepo).checkout = none ∧
    (clone_repo envA remoteA wNonRepo).isValidRepo = false ∧
    (clone_repo envA remoteA wNonRepo).networkOps = 0 ∧
    (clone_repo envA remoteA wNonRepo).output = [existsMsg] := by
  decide

/-- Claim C5 (amended): `clone_repo` decides by bare path existence — when
the local path exists it performs no clone and fails in no way, even when the
path holds no valid repository, whose invalid state it silently keeps; it
clones only when the path does not exist. -/
theorem clone_repo_existing_path_noop (env : Env) (r : RemoteRepo) (w : World)
    (h : w.pathExists = true) :
    (clone_repo env r w).checkout = w.checkout ∧
    (clone_repo env r w).isValidRepo = w.isValidRepo ∧
    (clone_repo env r w).networkOps = w.networkOps ∧
    (clone_repo env r w).output = w.output ++ [existsMsg] := by
  simp [clone_repo, h]

/-- Witness for the amended C5 at the occupied-by-non-repository world. -/
theorem clone_repo_existing_path_noop_witness :
    wNonRepo.pathExists = true ∧
    (clone_repo envA remoteA wNonRepo).networkOps = wNonRepo.networkOps :=
  ⟨rfl, (clone_repo_existing_path_noop envA remoteA wNonRepo rfl).2.2.1⟩

/-- Claim C6: every successful `checkout_source_branch` run decomposes into
exactly the three steps — checkout of the trunk branch `main`, a
fast-forwarding pull of `main` from its remote tracking branch, then checkout
of `SOURCE_BRANCH` — and leaves the checkout's current branch equal to the
target branch. -/
theorem checkout_source_branch_steps (env : Env) (c c' : Checkout)
    (h : checkout_source_branch env c = some c') :
    (∃ c1 c2, gitCheckout "main" c = some c1 ∧ c1.currentBranch = "main" ∧
      gitPull c1 = some c2 ∧
      lookupBranch c2.localBranches "main" = lookupBranch c1.remoteBranches "main" ∧
      gitCheckout env.SOURCE_BRANCH c2 = some c') ∧
    c'.currentBranch = env.SOURCE_BRANCH := by
  unfold checkout_source_branch at h
  obtain ⟨c1, h1, h⟩ := Option.bind_eq_some.mp h
  obtain ⟨c2, h2, h3⟩ := Option.bind_eq_some.mp h
  have hb := gitCheckout_currentBranch _ _ _ h1
  have hff := gitPull_fastForwards _ _ h2
  rw [hb] at hff
  exact ⟨⟨c1, c2, h1, hb, h2, hff.1, h3⟩, gitCheckout_currentBranch _ _ _ h3⟩

/-- Witness for C6 at a concrete checkout one commit behind on trunk. -/
theorem checkout_source_branch_steps_witness :
    checkout_source_branch envA cSync = some cSyncRes ∧
    cSyncRes.currentBranch = envA.SOURCE_BRANCH :=
  ⟨by decide, (checkout_source_branch_steps envA cSync cSyncRes (by decide)).2⟩

/-- Claim C7 (counterexample): given the one-file list `b.txt` — a file that
does not match the Python-extension filter — `run_autopep8` still invokes the
tool on it and the working tree changes, so the tool is not applied "only to
matching files", and a change set with no matching file does not leave the
tree unchanged. -/
theorem run_autopep8_no_filter_counterexample :
    pyFilter "b.txt" = false ∧
    (run_autopep8 rewriteTool ["b.txt"] [("b.txt", "x")]).invoked = ["b.txt"] ∧
    (run_autopep8 rewriteTool ["b.txt"] [("b.txt", "x")]).tree ≠ [("b.txt", "x")] := by
  refine ⟨by decide, ?_, by decide⟩
  exact run_autopep8_invoked _ _ _

/-- Claim C7 (amended): `run_autopep8` applies the tool to every file of the
list it is given, in order, with no filter and no existence check (selecting
`.py` files is left to the agent); only for the empty list does it invoke the
tool zero times, and then the working tree is unchanged and a clean checkout
stays clean. -/
theorem run_autopep8_unfiltered_empty_noop (tool : FmtTool) (files : List String)
    (c : Checkout) (h : has_changes c = false) :
    (run_autopep8 tool files c.workTree).invoked = files ∧
    (run_autopep8 tool [] c.workTree).tree = c.workTree ∧
    has_changes { c with workTree := (run_autopep8 tool [] c.workTree).tree } = false := by
  exact ⟨run_autopep8_invoked _ _ _, rfl, h⟩

/-- Witness for the amended C7 at a clean checkout and a failing tool. -/
theorem run_autopep8_unfiltered_empty_noop_witness :
    has_changes cCleanFeat = false ∧
    (run_autopep8 failTool ["b.txt"] cCleanFeat.workTree).invoked = ["b.txt"] :=
  ⟨by decide, (run_autopep8_unfiltered_empty_noop failTool ["b.txt"] cCleanFeat (by decide)).1⟩

/-- Claim C8 (counterexample): on a clean checkout (nothing to stage)
`commit_and_push` does not fail — the source branch gains a commit whose tree
equals its parent's (an empty commit), and that history is pushed to the
remote ref. -/
theorem commit_and_push_empty_commit_counterexample :
    has_changes cCleanFeat = false ∧
    lookupBranch (commit_and_push envA "style" cCleanFeat).1.localBranches "feature-1" =
      [{ id := 1, message := "style" }, { id := 0, message := "c0" }] ∧
    (commit_and_push envA "style" cCleanFeat).1.headTree = cCleanFeat.headTree ∧
    lookupBranch (commit_and_push envA "style" cCleanFeat).1.remoteBranches "feature-1" =
      [{ id := 1, message := "style" }, { id := 0, message := "c0" }] := by
  decide

/-- Claim C8 (amended): `commit_and_push` never fails for lack of staged
changes: on a checkout whose index and working tree equal the HEAD tree,
`repo.index.commit` still creates a commit — an empty one, its tree equal to
its parent's — and the push to the same-named remote ref proceeds. -/
theorem commit_and_push_clean_tree_still_commits (env : Env) (msg : String) (c : Checkout)
    (hw : c.workTree = c.headTree) (_hi : c.index = c.headTree) :
    lookupBranch (commit_and_push env msg c).1.localBranches c.currentBranch =
      { id := c.nextId, message := msg } :: lookupBranch c.localBranches c.currentBranch ∧
    (commit_and_push env msg c).1.headTree = c.headTree ∧
    lookupBranch (commit_and_push env msg c).1.remoteBranches env.SOURCE_BRANCH =
      lookupBranch (commit_and_push env msg c).1.localBranches env.SOURCE_BRANCH := by
  refine ⟨lookupBranch_setBranch_same _ _ _, ?_, lookupBranch_setBranch_same _ _ _⟩
  show c.workTree = c.headTree
  exact hw

/-- Witness for the amended C8 at a concrete clean checkout. -/
theorem commit_and_push_clean_tree_still_commits_witness :
    cCleanFeat.workTree = cCleanFeat.headTree ∧
    (commit_and_push envA "style" cCleanFeat).1.headTree = cCleanFeat.headTree :=
  ⟨rfl, (commit_and_push_clean_tree_still_commits envA "style" cCleanFeat rfl rfl).2.1⟩

/-- Claim C9: `commit_and_push` creates its commit on whatever branch is
currently checked out (HEAD), while the push refspec names `SOURCE_BRANCH`
independently of HEAD; when the active branch differs from `SOURCE_BRANCH`
(and the new commit id is fresh for that branch), the new commit is not
contained in the ref that gets pushed. -/
theorem commit_and_push_head_vs_pushed_ref (env : Env) (msg : String) (c : Checkout)
    (hne : c.currentBranch ≠ env.SOURCE_BRANCH)
    (hfresh : ∀ cm ∈ lookupBranch c.localBranches env.SOURCE_BRANCH, cm.id ≠ c.nextId) :
    lookupBranch (commit_and_push env msg c).1.localBranches c.currentBranch =
      { id := c.nextId, message := msg } :: lookupBranch c.localBranches c.currentBranch ∧
    (commit_and_push env msg c).2.remote_ref = env.SOURCE_BRANCH ∧
    lookupBranch (commit_and_push env msg c).1.remoteBranches env.SOURCE_BRANCH =
      lookupBranch c.localBranches env.SOURCE_BRANCH ∧
    ({ id := c.nextId, message := msg } : Commit) ∉
      lookupBranch (commit_and_push env msg c).1.remoteBranches env.SOURCE_BRANCH := by
  have hpush : lookupBranch (commit_and_push env msg c).1.remoteBranches env.SOURCE_BRANCH =
      lookupBranch c.localBranches env.SOURCE_BRANCH := by
    have h1 : lookupBranch (commit_and_push env msg c).1.remoteBranches env.SOURCE_BRANCH =
        lookupBranch (indexCommit msg (gitAddUpdate c)).localBranches env.SOURCE_BRANCH :=
      lookupBranch_setBranch_same _ _ _
    rw [h1]
    exact lookupBranch_setBranch_other _ _ _ _ hne.symm
  refine ⟨lookupBranch_setBranch_same _ _ _, rfl, hpush, ?_⟩
  rw [hpush]
  intro hmem
  exact hfresh _ hmem rfl

/-- Witness for C9 with HEAD on `main` and `SOURCE_BRANCH = feature-1`. -/
theorem commit_and_push_head_vs_pushed_ref_witness :
    cOnMain.currentBranch ≠ envA.SOURCE_BRANCH ∧
    ({ id := 1, message := "style" } : Commit) ∉
      lookupBranch (commit_and_push envA "style" cOnMain).1.remoteBranches "feature-1" :=
  ⟨by decide,
   (commit_and_push_head_vs_pushed_ref envA "style" cOnMain (by decide) (by decide)).2.2.2⟩

/-- Claim C10: on a first-time clone `clone_repo` embeds the `GITHUB_TOKEN`
credential in the remote URL and prints that URL: the printed line contains
the token verbatim, it is appended to the observable output, and two
environments differing only in the token produce different outputs — the
secret flows into the log. -/
theorem clone_repo_token_in_output (e1 e2 : Env) (r : RemoteRepo) (w : World)
    (hw : w.pathExists = false)
    (hrp : e1.REPO_PATH = e2.REPO_PATH)
    (ht : e1.GITHUB_TOKEN ≠ e2.GITHUB_TOKEN) :
    cloneMsg e1 =
      "Cloned repo from " ++
        ("https://" ++ e1.GITHUB_TOKEN ++ "@github.com/" ++ e1.REPO_PATH ++ ".git") ++
        " to " ++ LOCAL_REPO_PATH ∧
    (clone_repo e1 r w).output = w.output ++ [cloneMsg e1] ∧
    (clone_repo e1 r w).output ≠ (clone_repo e2 r w).output := by
  have ho1 : (clone_repo e1 r w).output = w.output ++ [cloneMsg e1] := by
    simp [clone_repo, hw]
  have ho2 : (clone_repo e2 r w).output = w.output ++ [cloneMsg e2] := by
    simp [clone_repo, hw]
  refine ⟨rfl, ho1, ?_⟩
  intro heq
  rw [ho1, ho2] at heq
  have h2 : [cloneMsg e1] = [cloneMsg e2] := List.append_cancel_left heq
  have h3 : cloneMsg e1 = cloneMsg e2 := by injection h2
  exact ht (cloneMsg_token_inj e1 e2 hrp h3)

/-- Witness for C10 at two concrete environments differing only in token. -/
theorem clone_repo_token_in_output_witness :
    freshWorld.pathExists = false ∧
    envA.GITHUB_TOKEN ≠ envB.GITHUB_TOKEN ∧
    (clone_repo envA remoteA freshWorld).output ≠ (clone_repo envB remoteA freshWorld).output :=
  ⟨rfl, by decide,
   (clone_repo_token_in_output envA envB remoteA freshWorld rfl rfl (by decide)).2.2⟩

end Beautify
